import Mathlib

/-!
# Product Resolver — verification of the multi-retailer URL/ID resolution engine

Shallow embedding of the resolver in `actions.js`:
`getRelianceDigitalArticleId`, `getProductDetails` and `addProduct`.

JavaScript strings are modelled as Lean `String`s, with the handful of
JS string operations the source uses (`split`, `trim`, `includes`,
hyphen replacement, word-initial upper-casing, `slice(0,50)`,
the all-digits test, the `-(\d{9})-i-1` match) re-implemented by structural
recursion over `List Char` so that everything reduces in the kernel.
JS `null`/`undefined`-or-string values are `Option String`, and the JS
truthiness test on them is `truthy` (`null`, `undefined` and `""` are
falsy).
-/

/-- JS string truthiness for a `string | null | undefined` value:
`null`/`undefined` (`none`) and the empty string are falsy. -/
def truthy : Option String → Bool
  | none => false
  | some s => !s.toList.isEmpty

/-- Core of JS `hay.includes(needle)` on char lists. -/
def listHasInfix (needle : List Char) : List Char → Bool
  | [] => needle.isEmpty
  | c :: cs => needle.isPrefixOf (c :: cs) || listHasInfix needle cs

/-- JS `s.includes(pat)`. -/
def jsIncludes (s pat : String) : Bool :=
  listHasInfix pat.toList s.toList

/-- Core of JS `s.split(sep)` (single-character separator, empties kept):
`"".split(c) = [""]`, `"/".split('/') = ["",""]`, etc. -/
def splitOnChar (sep : Char) : List Char → List (List Char)
  | [] => [[]]
  | c :: cs =>
    let r := splitOnChar sep cs
    if c == sep then [] :: r
    else
      match r with
      | [] => [[c]]
      | h :: t => (c :: h) :: t

/-- JS `s.split(sep)` for a single-character separator. -/
def jsSplit (sep : Char) (s : String) : List String :=
  (splitOnChar sep s.toList).map String.mk

/-- JS `s.trim()`. -/
def jsTrim (s : String) : String :=
  String.mk (((s.toList.dropWhile Char.isWhitespace).reverse.dropWhile Char.isWhitespace).reverse)

/-- JS global replacement of `'-'` by `' '` (the source's `replace` of
every hyphen). -/
def jsReplaceHyphens (s : String) : String :=
  String.mk (s.toList.map (fun c => if c == '-' then ' ' else c))

/-- JS `\w` (ASCII word character). -/
def isWordChar (c : Char) : Bool :=
  c.isAlpha || c.isDigit || c == '_'

/-- Core of JS `s.replace(/\b\w/g, l => l.toUpperCase())`: upper-case every
word character that is not preceded by a word character.  The boolean
argument records whether the previous character was a word character. -/
def titleCaseList : Bool → List Char → List Char
  | _, [] => []
  | prevW, c :: cs =>
    (if !prevW && isWordChar c then c.toUpper else c) :: titleCaseList (isWordChar c) cs

/-- JS `s.replace(/\b\w/g, l => l.toUpperCase())`. -/
def jsTitleCase (s : String) : String :=
  String.mk (titleCaseList false s.toList)

/-- JS `s.slice(0, 50)`. -/
def jsSlice50 (s : String) : String :=
  String.mk (s.toList.take 50)

/-- JS `/^\d+$/.test(s)`. -/
def testAllDigits (s : String) : Bool :=
  !s.toList.isEmpty && s.toList.all Char.isDigit

/-- Tries the JS regex `-(\d{9})-i-1` at the head of the list: a hyphen,
exactly nine digits, then the literal `-i-1`; on success returns the
captured nine digits. -/
def rdImageMatchAt : List Char → Option String
  | '-' :: rest =>
    let ds := rest.take 9
    if ds.length == 9 && ds.all Char.isDigit
        && (rest.drop 9).take 4 == ['-', 'i', '-', '1'] then
      some (String.mk ds)
    else none
  | _ => none

/-- The JS `match` against the `-(\d{9})-i-1` pattern: leftmost match,
returning capture group 1. -/
def rdImageSearch : List Char → Option String
  | [] => none
  | c :: cs =>
    match rdImageMatchAt (c :: cs) with
    | some d => some d
    | none => rdImageSearch cs

/-- The relevant parts of a JS `URL` object: `hostname`, `pathname` and
`searchParams.get('pid')` (the only query parameter the source reads). -/
structure ParsedURL where
  hostname : String
  pathname : String
  pidParam : Option String
deriving DecidableEq, Repr

/-- One `li.specifications-list` row of the scraped Reliance Digital page:
the text of its first `span` (the label) and the text of the nested
`.specifications-list--right ul` (the value). -/
structure SpecRow where
  firstSpanText : String
  rightUlText : String
deriving DecidableEq, Repr

/-- The parts of a fetched Reliance Digital page that
`getRelianceDigitalArticleId` inspects: the specification rows and the
`content` attribute of the `og:image` meta tag (`none` when absent). -/
structure RDPage where
  specRows : List SpecRow
  ogImage : Option String
deriving DecidableEq, Repr

/-- The descriptor `getProductDetails` returns on success. -/
structure ProductDescriptor where
  name : String
  productId : String
  storeType : String
  partNumber : Option String
deriving DecidableEq, Repr

/-- Tier 1 of the scraper: scan the specification rows for the first one
whose trimmed label is `"Item Code"` (the `.each` loop stops at the first
match via `return false`) and take its trimmed nested value. `none` models
the JS `null` the accumulator keeps when no row matches. -/
def structuredTier (rows : List SpecRow) : Option String :=
  (rows.find? (fun r => jsTrim r.firstSpanText == "Item Code")).map
    (fun r => jsTrim r.rightUlText)

/-- Tier 2 of the scraper: if the `og:image` meta content is present and
truthy, match it against `-(\d{9})-i-1` and return the captured digits. -/
def fallbackTier : Option String → Option String
  | none => none
  | some img => if img.toList.isEmpty then none else rdImageSearch img.toList

/-- `getRelianceDigitalArticleId`, as a function of the fetch outcome:
`none` models a transport failure or a non-ok HTTP status (both return
`null`).  On a fetched page, tier 1 runs first; the fallback tier runs
exactly when tier 1's accumulator is falsy (JS `if (!articleId)`, so a
matched row whose value trims to `""` still falls through), and when the
fallback regex does not match the accumulator keeps its previous value. -/
def getRelianceDigitalArticleId (page? : Option RDPage) : Option String :=
  match page? with
  | none => none
  | some p =>
    let articleId := structuredTier p.specRows
    if truthy articleId then articleId
    else
      match fallbackTier p.ogImage with
      | some d => some d
      | none => articleId

/-- Error message of a failed `new URL(url)` (caught `TypeError`). -/
def invalidUrlMsg : String := "Invalid URL"

/-- Error message of the caught `TypeError` raised by calling `.replace`
on `undefined` (Reliance Digital branch with an empty filtered path). -/
def undefinedReplaceMsg : String :=
  "Cannot read properties of undefined (reading 'replace')"

/-- The `--- NEW VIVO LOGIC (FIXED) ---` branch. -/
def vivoBranch (u : ParsedURL) : Except String ProductDescriptor :=
  let pathParts := (jsSplit '/' u.pathname).filter (fun p => p.length > 0)
  match pathParts.getLast? with
  | none => .error "Could not find a valid product ID in the Vivo URL."
  | some pid =>
    let nameSegment :=
      if pathParts.length ≥ 2 then pathParts.getD (pathParts.length - 2) ""
      else "Vivo Product"
    let rawName :=
      if nameSegment == "product" || testAllDigits nameSegment then "Vivo Product"
      else nameSegment
    let name := jsSlice50 (jsTitleCase (jsReplaceHyphens rawName)) ++ "..."
    .ok { name := "(Vivo) " ++ name, productId := pid, storeType := "vivo",
          partNumber := none }

/-- The `--- NEW IQOO LOGIC (FIXED) ---` branch. -/
def iqooBranch (u : ParsedURL) : Except String ProductDescriptor :=
  let pathParts := (jsSplit '/' u.pathname).filter (fun p => p.length > 0)
  match pathParts.getLast? with
  | none => .error "Could not find a valid product ID in the iQOO URL."
  | some pid =>
    let nameSegment :=
      if pathParts.length ≥ 2 then pathParts.getD (pathParts.length - 2) ""
      else "iQOO Product"
    let rawName :=
      if nameSegment == "product" || testAllDigits nameSegment then "iQOO Product"
      else nameSegment
    let name := jsSlice50 (jsTitleCase (jsReplaceHyphens rawName)) ++ "..."
    .ok { name := "(iQOO) " ++ name, productId := pid, storeType := "iqoo",
          partNumber := none }

/-- The `--- RELIANCE DIGITAL LOGIC (WITH SCRAPING) ---` branch;
`rdPage` is the outcome of the branch's one fetch. -/
def relianceBranch (u : ParsedURL) (rdPage : Option RDPage) :
    Except String ProductDescriptor :=
  let internalArticleId := getRelianceDigitalArticleId rdPage
  if !truthy internalArticleId then
    .error "Could not extract the internal Item Code from the Reliance Digital page."
  else
    let pathParts := (jsSplit '/' u.pathname).filter (fun p => p.length > 0)
    match pathParts.getLast? with
    | none => .error undefinedReplaceMsg
    | some slug =>
      let nameBase :=
        if pathParts.length > 1 then pathParts.getD (pathParts.length - 2) ""
        else slug
      let name := jsSlice50 (jsTitleCase (jsReplaceHyphens nameBase)) ++ "..."
      .ok { name := "(R. Digital) " ++ name,
            productId := internalArticleId.getD "",
            storeType := "reliance_digital", partNumber := some slug }

/-- The `--- NEW FLIPKART LOGIC ---` branch. -/
def flipkartBranch (u : ParsedURL) : Except String ProductDescriptor :=
  if !truthy u.pidParam then
    .error "Flipkart URL is missing a \"pid\" query parameter."
  else
    let pid := u.pidParam.getD ""
    let seg1 := (jsSplit '/' u.pathname).getD 1 ""
    let base := if seg1.toList.isEmpty then "Flipkart Product" else seg1
    let name := jsSlice50 (jsReplaceHyphens base) ++ "..."
    .ok { name := "(Flipkart) " ++ name, productId := pid,
          storeType := "flipkart", partNumber := none }

/-- The `--- AMAZON LOGIC ---` branch. -/
def amazonBranch (u : ParsedURL) : Except String ProductDescriptor :=
  let pathParts := jsSplit '/' u.pathname
  match pathParts.findIdx? (fun p => p == "dp") with
  | none => .error "Could not find a valid ASIN (e.g., /dp/B0CX59H5W7) in the Amazon URL."
  | some dpIndex =>
    let next := pathParts.getD (dpIndex + 1) ""
    if next.toList.isEmpty then
      .error "Could not find a valid ASIN (e.g., /dp/B0CX59H5W7) in the Amazon URL."
    else
      let prev := if dpIndex == 0 then "" else pathParts.getD (dpIndex - 1) ""
      let base := if prev.toList.isEmpty then "Amazon Product" else prev
      let name := jsSlice50 (jsReplaceHyphens base) ++ "..."
      .ok { name := "(Amazon) " ++ name, productId := next,
            storeType := "amazon", partNumber := none }

/-- The `--- APPLE LOGIC ---` branch; `partNumber` is the caller-supplied
secondary identifier (JS `string | null`). -/
def appleBranch (u : ParsedURL) (partNumber : Option String) :
    Except String ProductDescriptor :=
  if !truthy partNumber then
    .error "Apple products require a Part Number."
  else
    let pn := partNumber.getD ""
    let seg3 := (jsSplit '/' u.pathname).getD 3 ""
    let base := if seg3.toList.isEmpty then "Apple Product" else seg3
    let name := jsSlice50 (jsReplaceHyphens base) ++ "..."
    .ok { name := "(Apple) " ++ name, productId := pn,
          storeType := "apple", partNumber := some pn }

/-- The `--- CROMA LOGIC ---` branch.  Note the path is split WITHOUT
filtering out empty segments, and `pid` is the last raw segment. -/
def cromaBranch (u : ParsedURL) : Except String ProductDescriptor :=
  let pathParts := jsSplit '/' u.pathname
  let pid := pathParts.getLastD ""
  if pid.toList.isEmpty || !testAllDigits pid then
    .error "Could not find a valid product ID in the Croma URL."
  else
    let seg1 := pathParts.getD 1 ""
    let base := if seg1.toList.isEmpty then "Croma Product" else seg1
    let name := jsSlice50 (jsReplaceHyphens base) ++ "..."
    .ok { name := "(Croma) " ++ name, productId := pid,
          storeType := "croma", partNumber := none }

/-- `getProductDetails`: `url?` is the outcome of `new URL(url)` (`none`
models a parse failure, whose `TypeError` the `catch` turns into an error
value), `partNumber` the optional secondary identifier, and `rdPage` the
outcome of the single fetch the Reliance Digital branch would perform.
The host checks appear in exactly the source order. -/
def getProductDetails (url? : Option ParsedURL) (partNumber : Option String)
    (rdPage : Option RDPage) : Except String ProductDescriptor :=
  match url? with
  | none => .error invalidUrlMsg
  | some u =>
    if jsIncludes u.hostname "vivo.com" && !jsIncludes u.hostname "iqoo.com" then
      vivoBranch u
    else if jsIncludes u.hostname "iqoo.com" then
      iqooBranch u
    else if jsIncludes u.hostname "reliancedigital.in" then
      relianceBranch u rdPage
    else if jsIncludes u.hostname "flipkart.com" then
      flipkartBranch u
    else if jsIncludes u.hostname "amazon.in" then
      amazonBranch u
    else if jsIncludes u.hostname "apple.com" then
      appleBranch u partNumber
    else if jsIncludes u.hostname "croma.com" then
      cromaBranch u
    else
      .error "Sorry, only Croma, Apple, Amazon, Flipkart, Vivo, iQOO, and Reliance Digital URLs are supported."

/-- The retailer tags of the classifier (spec §4.1). -/
inductive Retailer where
  | vivo | iqoo | relianceDigital | flipkart | amazon | apple | croma | unsupported
deriving DecidableEq, Repr

/-- The retailer classifier: the host-substring checks of
`getProductDetails`, in source order, reified as a tag. -/
def classify (host : String) : Retailer :=
  if jsIncludes host "vivo.com" && !jsIncludes host "iqoo.com" then .vivo
  else if jsIncludes host "iqoo.com" then .iqoo
  else if jsIncludes host "reliancedigital.in" then .relianceDigital
  else if jsIncludes host "flipkart.com" then .flipkart
  else if jsIncludes host "amazon.in" then .amazon
  else if jsIncludes host "apple.com" then .apple
  else if jsIncludes host "croma.com" then .croma
  else .unsupported

/-- The form fields `addProduct` reads (JS `formData.get` yields
`string | null`, modelled as `Option String`). -/
structure FormData where
  url : Option String
  partNumber : Option String
  affiliateLink : Option String
deriving DecidableEq, Repr

/-- Outcome of `addProduct`: the `{ success }` or `{ error }` object. -/
inductive AddResult where
  | success (msg : String)
  | failure (msg : String)
deriving DecidableEq, Repr

/-- `addProduct`.  `parse` abstracts the JS `URL` constructor, `rdPage`
the single fetch outcome, and `createOk` whether `prisma.product.create`
succeeds.  The returned `Bool` records whether `create` was invoked.
(Every error message `getProductDetails` can produce is a non-empty
string — see `getProductDetails_error_nonempty` — so the source's JS
truthiness test `if (details.error)` is the `Except.error` match.) -/
def addProduct (fd : FormData) (parse : String → Option ParsedURL)
    (rdPage : Option RDPage) (createOk : Bool) : AddResult × Bool :=
  if !truthy fd.url then (.failure "URL is required.", false)
  else
    match getProductDetails (parse (fd.url.getD "")) fd.partNumber rdPage with
    | .error m => (.failure m, false)
    | .ok d =>
      if createOk then (.success ("Added " ++ d.name), true)
      else (.failure "Failed to add product. Is it a duplicate?", true)

/-- Equality of resolver outcomes is decidable (needed to evaluate the
resolver on concrete inputs inside proofs). -/
instance : DecidableEq (Except String ProductDescriptor) := fun a b =>
  match a, b with
  | .error x, .error y =>
    if h : x = y then .isTrue (by rw [h]) else .isFalse (by simp [h])
  | .ok x, .ok y =>
    if h : x = y then .isTrue (by rw [h]) else .isFalse (by simp [h])
  | .error _, .ok _ => .isFalse (by simp)
  | .ok _, .error _ => .isFalse (by simp)

/-! ## Supporting lemmas -/

theorem length_mk (l : List Char) : (String.mk l).length = l.length := rfl

theorem data_append (a b : String) : (a ++ b).toList = a.toList ++ b.toList := rfl

theorem string_ne_empty_of_isEmpty_false {s : String}
    (h : s.toList.isEmpty = false) : s ≠ "" := by
  intro he
  subst he
  simp at h

theorem truthy_some {s : String} (h : truthy (some s) = true) : s ≠ "" := by
  simp only [truthy, Bool.not_eq_true'] at h
  exact string_ne_empty_of_isEmpty_false h

theorem getLast?_filter_pos {l : List String} {a : String}
    (h : (l.filter (fun p => p.length > 0)).getLast? = some a) : a ≠ "" := by
  have hmem : a ∈ l.filter (fun p => p.length > 0) := by
    rcases List.getLast?_eq_some_iff.mp h with ⟨ys, hys⟩
    rw [hys]
    simp
  have := List.of_mem_filter hmem
  have hlen : 0 < a.length := by simpa using this
  intro he
  subst he
  simp at hlen

theorem length_jsSlice50 (s : String) : (jsSlice50 s).length ≤ 50 := by
  simp only [jsSlice50, length_mk, List.length_take]
  omega

theorem length_tag_slice (tag s : String) :
    (tag ++ (jsSlice50 s ++ "...")).length ≤ tag.length + 53 := by
  rw [String.length_append, String.length_append]
  have := length_jsSlice50 s
  have h3 : ("...".length : Nat) = 3 := rfl
  omega

/-- Shape of every successful Vivo result. -/
theorem vivoBranch_ok {u : ParsedURL} {d : ProductDescriptor}
    (h : vivoBranch u = Except.ok d) :
    ∃ s, d.name = "(Vivo) " ++ (jsSlice50 s ++ "...") ∧ d.productId ≠ ""
      ∧ d.storeType = "vivo" := by
  unfold vivoBranch at h
  simp only [] at h
  split at h
  · exact absurd h (by simp)
  · next pid hl =>
    injection h with h
    subst h
    exact ⟨_, rfl, getLast?_filter_pos hl, rfl⟩

/-- Shape of every successful iQOO result. -/
theorem iqooBranch_ok {u : ParsedURL} {d : ProductDescriptor}
    (h : iqooBranch u = Except.ok d) :
    ∃ s, d.name = "(iQOO) " ++ (jsSlice50 s ++ "...") ∧ d.productId ≠ ""
      ∧ d.storeType = "iqoo" := by
  unfold iqooBranch at h
  simp only [] at h
  split at h
  · exact absurd h (by simp)
  · next pid hl =>
    injection h with h
    subst h
    exact ⟨_, rfl, getLast?_filter_pos hl, rfl⟩

/-- Shape of every successful Reliance Digital result. -/
theorem relianceBranch_ok {u : ParsedURL} {rd : Option RDPage} {d : ProductDescriptor}
    (h : relianceBranch u rd = Except.ok d) :
    ∃ s, d.name = "(R. Digital) " ++ (jsSlice50 s ++ "...") ∧ d.productId ≠ ""
      ∧ d.storeType = "reliance_digital" := by
  unfold relianceBranch at h
  simp only [] at h
  split at h
  · exact absurd h (by simp)
  · next htr =>
    have htr' : truthy (getRelianceDigitalArticleId rd) = true := by
      revert htr
      cases truthy (getRelianceDigitalArticleId rd) <;> simp
    split at h
    · exact absurd h (by simp)
    · next slug hl =>
      have hid : ∃ aid, getRelianceDigitalArticleId rd = some aid := by
        cases hc : getRelianceDigitalArticleId rd with
        | none => rw [hc] at htr'; simp [truthy] at htr'
        | some aid => exact ⟨aid, rfl⟩
      obtain ⟨aid, haid⟩ := hid
      injection h with h
      subst h
      refine ⟨_, rfl, ?_, rfl⟩
      show (getRelianceDigitalArticleId rd).getD "" ≠ ""
      rw [haid, Option.getD_some]
      exact truthy_some (haid ▸ htr')

/-- Shape of every successful Flipkart result. -/
theorem flipkartBranch_ok {u : ParsedURL} {d : ProductDescriptor}
    (h : flipkartBranch u = Except.ok d) :
    ∃ s, d.name = "(Flipkart) " ++ (jsSlice50 s ++ "...") ∧ d.productId ≠ ""
      ∧ d.storeType = "flipkart" := by
  unfold flipkartBranch at h
  simp only [] at h
  split at h
  · exact absurd h (by simp)
  · next htr =>
    have htr' : truthy u.pidParam = true := by
      revert htr
      cases truthy u.pidParam <;> simp
    obtain ⟨pid, hp⟩ : ∃ p, u.pidParam = some p := by
      cases hc : u.pidParam with
      | none => rw [hc] at htr'; simp [truthy] at htr'
      | some p => exact ⟨p, rfl⟩
    injection h with h
    subst h
    refine ⟨_, rfl, ?_, rfl⟩
    show u.pidParam.getD "" ≠ ""
    rw [hp, Option.getD_some]
    exact truthy_some (hp ▸ htr')

/-- Shape of every successful Amazon result. -/
theorem amazonBranch_ok {u : ParsedURL} {d : ProductDescriptor}
    (h : amazonBranch u = Except.ok d) :
    ∃ s, d.name = "(Amazon) " ++ (jsSlice50 s ++ "...") ∧ d.productId ≠ ""
      ∧ d.storeType = "amazon" := by
  unfold amazonBranch at h
  simp only [] at h
  split at h
  · exact absurd h (by simp)
  · next dpIndex hidx =>
    split at h
    · exact absurd h (by simp)
    · next hne =>
      injection h with h
      subst h
      refine ⟨_, rfl, ?_, rfl⟩
      exact string_ne_empty_of_isEmpty_false (by simpa using hne)

/-- Shape of every successful Apple result. -/
theorem appleBranch_ok {u : ParsedURL} {pn : Option String} {d : ProductDescriptor}
    (h : appleBranch u pn = Except.ok d) :
    ∃ s, d.name = "(Apple) " ++ (jsSlice50 s ++ "...") ∧ d.productId ≠ ""
      ∧ d.storeType = "apple" := by
  unfold appleBranch at h
  simp only [] at h
  split at h
  · exact absurd h (by simp)
  · next htr =>
    have htr' : truthy pn = true := by
      revert htr
      cases truthy pn <;> simp
    obtain ⟨p, hp⟩ : ∃ p, pn = some p := by
      cases hc : pn with
      | none => rw [hc] at htr'; simp [truthy] at htr'
      | some p => exact ⟨p, rfl⟩
    injection h with h
    subst h
    refine ⟨_, rfl, ?_, rfl⟩
    show pn.getD "" ≠ ""
    rw [hp, Option.getD_some]
    exact truthy_some (hp ▸ htr')

/-- Shape of every successful Croma result. -/
theorem cromaBranch_ok {u : ParsedURL} {d : ProductDescriptor}
    (h : cromaBranch u = Except.ok d) :
    ∃ s, d.name = "(Croma) " ++ (jsSlice50 s ++ "...") ∧ d.productId ≠ ""
      ∧ d.storeType = "croma" := by
  unfold cromaBranch at h
  simp only [] at h
  split at h
  · exact absurd h (by simp)
  · next hcond =>
    injection h with h
    subst h
    refine ⟨_, rfl, ?_, rfl⟩
    show (jsSplit '/' u.pathname).getLastD "" ≠ ""
    have : ((jsSplit '/' u.pathname).getLastD "").toList.isEmpty = false := by
      revert hcond
      cases ((jsSplit '/' u.pathname).getLastD "").toList.isEmpty <;> simp
    exact string_ne_empty_of_isEmpty_false this

/-- When the classifier selects Croma, the resolver runs the Croma branch. -/
theorem getProductDetails_croma {u : ParsedURL} (pn : Option String)
    (rd : Option RDPage) (h : classify u.hostname = Retailer.croma) :
    getProductDetails (some u) pn rd = cromaBranch u := by
  unfold classify at h
  simp only [getProductDetails]
  split_ifs at h ⊢
  simp_all

/-- When the classifier selects Amazon, the resolver runs the Amazon branch. -/
theorem getProductDetails_amazon {u : ParsedURL} (pn : Option String)
    (rd : Option RDPage) (h : classify u.hostname = Retailer.amazon) :
    getProductDetails (some u) pn rd = amazonBranch u := by
  unfold classify at h
  simp only [getProductDetails]
  split_ifs at h ⊢
  simp_all

theorem vivoBranch_error {u : ParsedURL} {m : String}
    (h : vivoBranch u = Except.error m) : m ≠ "" := by
  unfold vivoBranch at h
  simp only [] at h
  split at h
  · injection h with h; subst h; decide
  · exact absurd h (by simp)

theorem iqooBranch_error {u : ParsedURL} {m : String}
    (h : iqooBranch u = Except.error m) : m ≠ "" := by
  unfold iqooBranch at h
  simp only [] at h
  split at h
  · injection h with h; subst h; decide
  · exact absurd h (by simp)

theorem relianceBranch_error {u : ParsedURL} {rd : Option RDPage} {m : String}
    (h : relianceBranch u rd = Except.error m) : m ≠ "" := by
  unfold relianceBranch at h
  simp only [] at h
  split at h
  · injection h with h; subst h; decide
  · split at h
    · injection h with h; subst h; decide
    · exact absurd h (by simp)

theorem flipkartBranch_error {u : ParsedURL} {m : String}
    (h : flipkartBranch u = Except.error m) : m ≠ "" := by
  unfold flipkartBranch at h
  simp only [] at h
  split at h
  · injection h with h; subst h; decide
  · exact absurd h (by simp)

theorem amazonBranch_error {u : ParsedURL} {m : String}
    (h : amazonBranch u = Except.error m) : m ≠ "" := by
  unfold amazonBranch at h
  simp only [] at h
  split at h
  · injection h with h; subst h; decide
  · split at h
    · injection h with h; subst h; decide
    · exact absurd h (by simp)

theorem appleBranch_error {u : ParsedURL} {pn : Option String} {m : String}
    (h : appleBranch u pn = Except.error m) : m ≠ "" := by
  unfold appleBranch at h
  simp only [] at h
  split at h
  · injection h with h; subst h; decide
  · exact absurd h (by simp)

theorem cromaBranch_error {u : ParsedURL} {m : String}
    (h : cromaBranch u = Except.error m) : m ≠ "" := by
  unfold cromaBranch at h
  simp only [] at h
  split at h
  · injection h with h; subst h; decide
  · exact absurd h (by simp)

/-- Every failure message the resolver can produce is a non-empty string,
so the caller's JS truthiness test `if (details.error)` recognises every
failure. -/
theorem getProductDetails_error_nonempty {url? : Option ParsedURL}
    {pn : Option String} {rd : Option RDPage} {m : String}
    (h : getProductDetails url? pn rd = Except.error m) : m ≠ "" := by
  cases url? with
  | none =>
    simp only [getProductDetails] at h
    injection h with h
    subst h
    decide
  | some u =>
    simp only [getProductDetails] at h
    split_ifs at h
    · exact vivoBranch_error h
    · exact iqooBranch_error h
    · exact relianceBranch_error h
    · exact flipkartBranch_error h
    · exact amazonBranch_error h
    · exact appleBranch_error h
    · exact cromaBranch_error h
    · injection h with h; subst h; decide

/-- The structured tier returns the trimmed value of the first row whose
trimmed label is `"Item Code"`, ignoring everything after it. -/
theorem structuredTier_first_match (pre : List SpecRow) (r : SpecRow)
    (post : List SpecRow)
    (hpre : ∀ r' ∈ pre, (jsTrim r'.firstSpanText == "Item Code") = false)
    (hr : (jsTrim r.firstSpanText == "Item Code") = true) :
    structuredTier (pre ++ r :: post) = some (jsTrim r.rightUlText) := by
  induction pre with
  | nil =>
    show structuredTier (r :: post) = _
    unfold structuredTier
    rw [@List.find?_cons_of_pos _ (fun x => jsTrim x.firstSpanText == "Item Code") r post hr]
    rfl
  | cons a as ih =>
    have ha := hpre a (by simp)
    show structuredTier (a :: (as ++ r :: post)) = _
    unfold structuredTier
    rw [@List.find?_cons_of_neg _ (fun x => jsTrim x.firstSpanText == "Item Code") a (as ++ r :: post) (by simp [ha])]
    have hrec := ih (fun r' hm => hpre r' (by simp [hm]))
    unfold structuredTier at hrec
    exact hrec

/-! ## Claims -/

/-- C1: for every input (URL parse outcome, optional secondary identifier,
scrape outcome), `getProductDetails` produces exactly one of a
`ProductDescriptor` (`Except.ok`) or a failure message (`Except.error`):
a URL parse error is returned as the failure value `invalidUrlMsg`
(never thrown), and a descriptor is returned precisely when no failure
message is. -/
theorem c1_resolver_exactly_one_outcome :
    (∀ pn rd, getProductDetails none pn rd = Except.error invalidUrlMsg)
    ∧ (∀ url? pn rd,
        (∃ d, getProductDetails url? pn rd = Except.ok d) ↔
          ¬ ∃ m, getProductDetails url? pn rd = Except.error m) := by
  refine ⟨fun pn rd => rfl, fun url? pn rd => ?_⟩
  cases h : getProductDetails url? pn rd <;> simp [h]

/-- C6: a URL whose host satisfies the iQOO signature is never classified
as Vivo (even if the host also contains the Vivo substring), is resolved
by the iQOO strategy, and can never yield storeType `"vivo"`. -/
theorem c6_iqoo_never_vivo (u : ParsedURL) (pn : Option String)
    (rd : Option RDPage) (h : jsIncludes u.hostname "iqoo.com" = true) :
    classify u.hostname ≠ Retailer.vivo
    ∧ getProductDetails (some u) pn rd = iqooBranch u
    ∧ ∀ d, getProductDetails (some u) pn rd = Except.ok d → d.storeType = "iqoo" := by
  have h1 : getProductDetails (some u) pn rd = iqooBranch u := by
    simp [getProductDetails, h]
  refine ⟨by simp [classify, h], h1, fun d hd => ?_⟩
  rw [h1] at hd
  obtain ⟨_, _, _, hstore⟩ := iqooBranch_ok hd
  exact hstore

/-- C6 witness: a host containing both signatures. -/
theorem c6_witness :
    jsIncludes "iqoo.com.vivo.com" "vivo.com" = true
    ∧ classify "iqoo.com.vivo.com" ≠ Retailer.vivo
    ∧ getProductDetails (some ⟨"iqoo.com.vivo.com", "/phones/iqoo-z7-pro/2057", none⟩)
        none none = iqooBranch ⟨"iqoo.com.vivo.com", "/phones/iqoo-z7-pro/2057", none⟩ := by
  have h := c6_iqoo_never_vivo ⟨"iqoo.com.vivo.com", "/phones/iqoo-z7-pro/2057", none⟩
    none none (by decide)
  exact ⟨by decide, h.1, h.2.1⟩

/-- C7: whenever the resolver returns a descriptor — any of the seven
retailer strategies — its `productId` is a non-empty string. -/
theorem c7_productId_nonempty (url? : Option ParsedURL) (pn : Option String)
    (rd : Option RDPage) (d : ProductDescriptor)
    (h : getProductDetails url? pn rd = Except.ok d) : d.productId ≠ "" := by
  cases url? with
  | none => exact absurd h (by simp [getProductDetails])
  | some u =>
    simp only [getProductDetails] at h
    split_ifs at h
    · obtain ⟨_, _, hpid, _⟩ := vivoBranch_ok h; exact hpid
    · obtain ⟨_, _, hpid, _⟩ := iqooBranch_ok h; exact hpid
    · obtain ⟨_, _, hpid, _⟩ := relianceBranch_ok h; exact hpid
    · obtain ⟨_, _, hpid, _⟩ := flipkartBranch_ok h; exact hpid
    · obtain ⟨_, _, hpid, _⟩ := amazonBranch_ok h; exact hpid
    · obtain ⟨_, _, hpid, _⟩ := appleBranch_ok h; exact hpid
    · obtain ⟨_, _, hpid, _⟩ := cromaBranch_ok h; exact hpid

/-- C7 witness at a concrete Amazon URL. -/
theorem c7_witness :
    (ProductDescriptor.mk "(Amazon) Some Great Item..." "B0CX59H5W7" "amazon"
      none).productId ≠ "" :=
  c7_productId_nonempty
    (some ⟨"www.amazon.in", "/Some-Great-Item/dp/B0CX59H5W7", none⟩) none none _
    (by decide)

/-- C8: every returned descriptor's name ends in the ellipsis marker
`"..."` — the suffix is appended unconditionally, even when the raw name
is 50 characters or shorter and no truncation occurs. -/
theorem c8_name_ends_in_ellipsis (url? : Option ParsedURL) (pn : Option String)
    (rd : Option RDPage) (d : ProductDescriptor)
    (h : getProductDetails url? pn rd = Except.ok d) :
    "...".toList <:+ d.name.toList := by
  have shape : ∃ t s, d.name = t ++ (jsSlice50 s ++ "...") := by
    cases url? with
    | none => exact absurd h (by simp [getProductDetails])
    | some u =>
      simp only [getProductDetails] at h
      split_ifs at h
      · obtain ⟨s, hn, _, _⟩ := vivoBranch_ok h; exact ⟨_, s, hn⟩
      · obtain ⟨s, hn, _, _⟩ := iqooBranch_ok h; exact ⟨_, s, hn⟩
      · obtain ⟨s, hn, _, _⟩ := relianceBranch_ok h; exact ⟨_, s, hn⟩
      · obtain ⟨s, hn, _, _⟩ := flipkartBranch_ok h; exact ⟨_, s, hn⟩
      · obtain ⟨s, hn, _, _⟩ := amazonBranch_ok h; exact ⟨_, s, hn⟩
      · obtain ⟨s, hn, _, _⟩ := appleBranch_ok h; exact ⟨_, s, hn⟩
      · obtain ⟨s, hn, _, _⟩ := cromaBranch_ok h; exact ⟨_, s, hn⟩
  obtain ⟨t, s, hname⟩ := shape
  rw [hname, data_append, data_append, ← List.append_assoc]
  exact List.suffix_append _ _

/-- C8 witness at a concrete Flipkart URL whose raw name is short (no
truncation happens, the suffix is still there). -/
theorem c8_witness :
    "...".toList <:+
      (ProductDescriptor.mk "(Flipkart) some product..." "ABCD12345" "flipkart"
        none).name.toList :=
  c8_name_ends_in_ellipsis
    (some ⟨"www.flipkart.com", "/some-product/p/itm123", some "ABCD12345"⟩)
    none none _ (by decide)

/-- C10: when the URL form field is absent (or empty, which JS treats the
same) `addProduct` returns `"URL is required."`, and when resolution
fails it returns the resolver's message — in both cases without invoking
the persistence layer's create operation; conversely create is only ever
invoked after resolution returned a descriptor. -/
theorem c10_no_create_on_failure (fd : FormData)
    (parse : String → Option ParsedURL) (rdPage : Option RDPage)
    (createOk : Bool) :
    (truthy fd.url = false →
      addProduct fd parse rdPage createOk = (AddResult.failure "URL is required.", false))
    ∧ (∀ m, truthy fd.url = true →
        getProductDetails (parse (fd.url.getD "")) fd.partNumber rdPage = Except.error m →
        addProduct fd parse rdPage createOk = (AddResult.failure m, false))
    ∧ ((addProduct fd parse rdPage createOk).2 = true →
        ∃ d, getProductDetails (parse (fd.url.getD "")) fd.partNumber rdPage = Except.ok d) := by
  refine ⟨fun hu => by simp [addProduct, hu],
    fun m hu hm => by simp [addProduct, hu, hm],
    fun hcreate => ?_⟩
  cases hres : getProductDetails (parse (fd.url.getD "")) fd.partNumber rdPage with
  | ok d => exact ⟨d, rfl⟩
  | error m =>
    exfalso
    by_cases hu : truthy fd.url = true
    · have : addProduct fd parse rdPage createOk = (AddResult.failure m, false) := by
        simp [addProduct, hu, hres]
      rw [this] at hcreate
      simp at hcreate
    · have hu' : truthy fd.url = false := by
        revert hu
        cases truthy fd.url <;> simp
      have : addProduct fd parse rdPage createOk =
          (AddResult.failure "URL is required.", false) := by
        simp [addProduct, hu']
      rw [this] at hcreate
      simp at hcreate

/-- C10 witness: a missing URL field, and a URL that fails to parse. -/
theorem c10_witness :
    addProduct ⟨none, none, none⟩ (fun _ => none) none true =
      (AddResult.failure "URL is required.", false)
    ∧ addProduct ⟨some "nonsense", none, none⟩ (fun _ => none) none true =
      (AddResult.failure invalidUrlMsg, false) :=
  ⟨(c10_no_create_on_failure ⟨none, none, none⟩ (fun _ => none) none true).1 (by decide),
   (c10_no_create_on_failure ⟨some "nonsense", none, none⟩ (fun _ => none) none true).2.1
     invalidUrlMsg (by decide) (by decide)⟩

theorem testAllDigits_not_empty {s : String} (h : testAllDigits s = true) :
    s.toList.isEmpty = false := by
  simp only [testAllDigits, Bool.and_eq_true, Bool.not_eq_true'] at h
  exact h.1

/-- C2 counterexample: for a Croma URL whose path ends in a slash, the
last NON-EMPTY path segment is `"123456"` (all digits), yet resolution
fails — the code keys on the last RAW segment of the slash-split, which
is the empty string here. -/
theorem c2_counterexample :
    ((jsSplit '/' "/p/123456/").filter (fun p => p.length > 0)).getLast? = some "123456"
    ∧ testAllDigits "123456" = true
    ∧ getProductDetails (some ⟨"www.croma.com", "/p/123456/", none⟩) none none =
        Except.error "Could not find a valid product ID in the Croma URL." :=
  ⟨by decide, by decide, by decide⟩

/-- C2 (amended): for every URL classified as Croma, the product
identifier is the last RAW segment of the slash-split of the path (so a
trailing slash fails even when a numeric segment precedes it): resolution
succeeds with that segment as `productId` exactly when it is non-empty
and all digits, the name coming from the split's index-1 segment (or the
default); otherwise it fails with the Croma error message. -/
theorem c2_croma_last_raw_segment (u : ParsedURL) (pn : Option String)
    (rd : Option RDPage) (h : classify u.hostname = Retailer.croma) :
    (testAllDigits ((jsSplit '/' u.pathname).getLastD "") = true →
      getProductDetails (some u) pn rd = Except.ok
        { name := "(Croma) " ++ (jsSlice50 (jsReplaceHyphens
            (if ((jsSplit '/' u.pathname).getD 1 "").toList.isEmpty then "Croma Product"
             else (jsSplit '/' u.pathname).getD 1 "")) ++ "..."),
          productId := (jsSplit '/' u.pathname).getLastD "",
          storeType := "croma", partNumber := none })
    ∧ (testAllDigits ((jsSplit '/' u.pathname).getLastD "") = false →
      getProductDetails (some u) pn rd =
        Except.error "Could not find a valid product ID in the Croma URL.") := by
  rw [getProductDetails_croma pn rd h]
  unfold cromaBranch
  simp only []
  constructor
  · intro ht
    have hne := testAllDigits_not_empty ht
    have hcond : (((jsSplit '/' u.pathname).getLastD "").toList.isEmpty
        || !testAllDigits ((jsSplit '/' u.pathname).getLastD "")) = false := by
      rw [hne, ht]
      rfl
    rw [if_neg (by rw [hcond]; exact Bool.false_ne_true)]
  · intro ht
    have hcond : (((jsSplit '/' u.pathname).getLastD "").toList.isEmpty
        || !testAllDigits ((jsSplit '/' u.pathname).getLastD "")) = true := by
      rw [ht]
      simp
    rw [if_pos hcond]

/-- C2 witness: a well-formed Croma URL (no trailing slash). -/
theorem c2_witness :
    getProductDetails (some ⟨"www.croma.com", "/p/123456", none⟩) none none =
      Except.ok { name := "(Croma) p...", productId := "123456",
                  storeType := "croma", partNumber := none } := by
  have h := (c2_croma_last_raw_segment ⟨"www.croma.com", "/p/123456", none⟩ none none
    (by decide)).1 (by decide)
  exact h.trans (by decide)

/-- C3 counterexample: a Reliance Digital resolution whose descriptor's
`name` is 66 characters long — beyond "about 53 including the retailer
prefix" — because the 13-character tag `"(R. Digital) "` is prepended
AFTER the 50-character truncation and ellipsis. -/
theorem c3_counterexample :
    (match getProductDetails
        (some ⟨"www.reliancedigital.in",
               "/products/aaaaaaaaaaaaaaaaaaaaaaaaaaaaaaaaaaaaaaaaaaaaaaaaaaaaaaaaaaaa/slug1",
               none⟩) none
        (some ⟨[⟨"Item Code", "300012345"⟩], none⟩) with
      | .ok d => d.name.length
      | .error _ => 0) = 66 := by decide

/-- C3 (amended): any raw name longer than 50 characters is truncated to
exactly 50 characters plus the 3-character ellipsis suffix, and the
`name` of every returned descriptor — retailer prefix included — has
length at most 66 (= 13-character worst-case prefix + 50 + 3), not 53. -/
theorem c3_name_length_bounds :
    (∀ s : String, 50 < s.length → (jsSlice50 s ++ "...").length = 53)
    ∧ (∀ url? pn rd d, getProductDetails url? pn rd = Except.ok d →
        d.name.length ≤ 66) := by
  constructor
  · intro s hs
    rw [String.length_append]
    have h50 : (jsSlice50 s).length = 50 := by
      simp only [jsSlice50, length_mk, List.length_take]
      have hl : s.length = s.toList.length := rfl
      omega
    have h3 : ("..." : String).length = 3 := rfl
    omega
  · intro url? pn rd d h
    have shape : ∃ t s, d.name = t ++ (jsSlice50 s ++ "...") ∧ t.length ≤ 13 := by
      cases url? with
      | none => exact absurd h (by simp [getProductDetails])
      | some u =>
        simp only [getProductDetails] at h
        split_ifs at h
        · obtain ⟨s, hn, _, _⟩ := vivoBranch_ok h; exact ⟨_, s, hn, by decide⟩
        · obtain ⟨s, hn, _, _⟩ := iqooBranch_ok h; exact ⟨_, s, hn, by decide⟩
        · obtain ⟨s, hn, _, _⟩ := relianceBranch_ok h; exact ⟨_, s, hn, by decide⟩
        · obtain ⟨s, hn, _, _⟩ := flipkartBranch_ok h; exact ⟨_, s, hn, by decide⟩
        · obtain ⟨s, hn, _, _⟩ := amazonBranch_ok h; exact ⟨_, s, hn, by decide⟩
        · obtain ⟨s, hn, _, _⟩ := appleBranch_ok h; exact ⟨_, s, hn, by decide⟩
        · obtain ⟨s, hn, _, _⟩ := cromaBranch_ok h; exact ⟨_, s, hn, by decide⟩
    obtain ⟨t, s, hname, ht⟩ := shape
    rw [hname]
    have := length_tag_slice t s
    omega

/-- C3 witness: a 51-character raw name truncates to 53 with the suffix,
and a concrete returned descriptor's name is within the 66 bound. -/
theorem c3_witness :
    (jsSlice50 "aaaaaaaaaaaaaaaaaaaaaaaaaaaaaaaaaaaaaaaaaaaaaaaaaaa" ++ "...").length = 53
    ∧ (ProductDescriptor.mk "(Croma) tv..." "654321" "croma" none).name.length ≤ 66 :=
  ⟨c3_name_length_bounds.1 "aaaaaaaaaaaaaaaaaaaaaaaaaaaaaaaaaaaaaaaaaaaaaaaaaaa" (by decide),
   c3_name_length_bounds.2 (some ⟨"www.croma.com", "/tv/654321", none⟩) none none _
     (by decide)⟩

/-- C4: on a fetched Reliance Digital page the two extraction tiers run
in order with first-success semantics: the structured tier takes the
trimmed value of the FIRST row whose trimmed label is exactly
`"Item Code"`; the og:image fallback tier is consulted exactly when that
value is falsy, and when it matches, its captured 9 digits are the
result; the spec's image-URL example captures `"300012345"`; and when
both tiers yield nothing the strategy's result is falsy, so the branch
fails. -/
theorem c4_reliance_two_tiers :
    (∀ (pre : List SpecRow) (r : SpecRow) (post : List SpecRow),
      (∀ r' ∈ pre, jsTrim r'.firstSpanText ≠ "Item Code") →
      jsTrim r.firstSpanText = "Item Code" →
      structuredTier (pre ++ r :: post) = some (jsTrim r.rightUlText))
    ∧ (∀ p : RDPage, truthy (structuredTier p.specRows) = true →
        getRelianceDigitalArticleId (some p) = structuredTier p.specRows)
    ∧ (∀ p : RDPage, truthy (structuredTier p.specRows) = false →
        truthy (fallbackTier p.ogImage) = true →
        getRelianceDigitalArticleId (some p) = fallbackTier p.ogImage)
    ∧ getRelianceDigitalArticleId
        (some ⟨[], some "https://x/foo-300012345-i-1-202.jpg"⟩) = some "300012345"
    ∧ (∀ p : RDPage, truthy (structuredTier p.specRows) = false →
        truthy (fallbackTier p.ogImage) = false →
        truthy (getRelianceDigitalArticleId (some p)) = false) := by
  refine ⟨?_, ?_, ?_, by decide, ?_⟩
  · intro pre r post hpre hr
    exact structuredTier_first_match pre r post
      (fun r' hm => beq_eq_false_iff_ne.mpr (hpre r' hm))
      (beq_iff_eq.mpr hr)
  · intro p h1
    simp [getRelianceDigitalArticleId, h1]
  · intro p h1 h2
    cases hfb : fallbackTier p.ogImage with
    | none => rw [hfb] at h2; simp [truthy] at h2
    | some d => simp [getRelianceDigitalArticleId, h1, hfb]
  · intro p h1 h2
    simp only [getRelianceDigitalArticleId, h1]
    cases hfb : fallbackTier p.ogImage with
    | none => simpa using h1
    | some d => rw [hfb] at h2; simpa using h2

/-- C4 witness: concrete pages exercising each tier and the failure
case. -/
theorem c4_witness :
    structuredTier ([⟨"Color", "Red"⟩] ++ ⟨" Item Code ", " 300012345 "⟩ :: []) =
      some "300012345"
    ∧ getRelianceDigitalArticleId
        (some ⟨[⟨"Item Code", "300012345"⟩], some "zzz"⟩) = some "300012345"
    ∧ getRelianceDigitalArticleId
        (some ⟨[⟨"Other", "x"⟩], some "a-123456789-i-1"⟩) = some "123456789"
    ∧ truthy (getRelianceDigitalArticleId (some ⟨[], none⟩)) = false := by
  refine ⟨?_, ?_, ?_, ?_⟩
  · have h := c4_reliance_two_tiers.1 [⟨"Color", "Red"⟩] ⟨" Item Code ", " 300012345 "⟩ []
      (by decide) (by decide)
    exact h.trans (by decide)
  · have h := c4_reliance_two_tiers.2.1 ⟨[⟨"Item Code", "300012345"⟩], some "zzz"⟩
      (by decide)
    exact h.trans (by decide)
  · have h := c4_reliance_two_tiers.2.2.1 ⟨[⟨"Other", "x"⟩], some "a-123456789-i-1"⟩
      (by decide) (by decide)
    exact h.trans (by decide)
  · exact c4_reliance_two_tiers.2.2.2.2 ⟨[], none⟩ (by decide) (by decide)

/-- C5: for every URL classified as Amazon, resolution succeeds iff the
raw slash-split of the path contains the literal segment `"dp"` (first
occurrence) immediately followed by a non-empty segment; on success the
`productId` is that following segment, the `storeType` is `"amazon"`,
and the name comes from the segment immediately preceding `"dp"` (or the
default `"Amazon Product"`). -/
theorem c5_amazon_dp (u : ParsedURL) (pn : Option String) (rd : Option RDPage)
    (h : classify u.hostname = Retailer.amazon) :
    ((∃ d, getProductDetails (some u) pn rd = Except.ok d) ↔
      (∃ i, (jsSplit '/' u.pathname).findIdx? (fun p => p == "dp") = some i
        ∧ ((jsSplit '/' u.pathname).getD (i + 1) "").toList.isEmpty = false))
    ∧ (∀ i, (jsSplit '/' u.pathname).findIdx? (fun p => p == "dp") = some i →
        ((jsSplit '/' u.pathname).getD (i + 1) "").toList.isEmpty = false →
        getProductDetails (some u) pn rd = Except.ok
          { name := "(Amazon) " ++ (jsSlice50 (jsReplaceHyphens
              (if (if i == 0 then ""
                   else (jsSplit '/' u.pathname).getD (i - 1) "").toList.isEmpty
               then "Amazon Product"
               else if i == 0 then ""
                    else (jsSplit '/' u.pathname).getD (i - 1) "")) ++ "..."),
            productId := (jsSplit '/' u.pathname).getD (i + 1) "",
            storeType := "amazon", partNumber := none }) := by
  rw [getProductDetails_amazon pn rd h]
  unfold amazonBranch
  simp only []
  constructor
  · cases hidx : (jsSplit '/' u.pathname).findIdx? (fun p => p == "dp") with
    | none => simp
    | some i =>
      cases hne : ((jsSplit '/' u.pathname).getD (i + 1) "").toList.isEmpty with
      | true => simp at hne; simp [hne]
      | false => simp at hne; simp [hne]
  · intro i hi hne
    rw [hi]
    simp at hne
    simp [hne]

/-- C5 witness: the spec's example URL. -/
theorem c5_witness :
    getProductDetails
      (some ⟨"www.amazon.in", "/Some-Great-Item/dp/B0CX59H5W7", none⟩) none none =
      Except.ok { name := "(Amazon) Some Great Item...", productId := "B0CX59H5W7",
                  storeType := "amazon", partNumber := none }
    ∧ jsIncludes "(Amazon) Some Great Item..." "Some Great Item" = true := by
  have h := (c5_amazon_dp ⟨"www.amazon.in", "/Some-Great-Item/dp/B0CX59H5W7", none⟩
    none none (by decide)).2 2 (by decide) (by decide)
  exact ⟨h.trans (by decide), by decide⟩

/-- C9: a specification row whose trimmed label is `"Item Code"` but
whose nested value trims to the empty string yields `some ""` from the
structured tier — a falsy value, so the og:image fallback tier is still
consulted, and only a fallback match can change the result. -/
theorem c9_empty_item_code_falls_through (pre : List SpecRow) (r : SpecRow)
    (post : List SpecRow) (og : Option String)
    (hpre : ∀ r' ∈ pre, jsTrim r'.firstSpanText ≠ "Item Code")
    (hr : jsTrim r.firstSpanText = "Item Code")
    (hv : jsTrim r.rightUlText = "") :
    structuredTier (pre ++ r :: post) = some ""
    ∧ getRelianceDigitalArticleId (some ⟨pre ++ r :: post, og⟩) =
        (match fallbackTier og with
         | some d => some d
         | none => some "") := by
  have hst : structuredTier (pre ++ r :: post) = some "" := by
    rw [structuredTier_first_match pre r post
      (fun r' hm => beq_eq_false_iff_ne.mpr (hpre r' hm)) (beq_iff_eq.mpr hr), hv]
  refine ⟨hst, ?_⟩
  show (let articleId := structuredTier (pre ++ r :: post);
    if truthy articleId then articleId
    else match fallbackTier og with
         | some d => some d
         | none => articleId) = _
  rw [hst]
  simp [truthy]

/-- C9 witness: concrete page with an empty Item Code value and a
matching og:image fallback. -/
theorem c9_witness :
    structuredTier ([⟨"Color", "Red"⟩] ++ ⟨"Item Code", "   "⟩ :: []) = some ""
    ∧ getRelianceDigitalArticleId
        (some ⟨[⟨"Color", "Red"⟩] ++ ⟨"Item Code", "   "⟩ :: [],
               some "x-987654321-i-1"⟩) = some "987654321" := by
  have h := c9_empty_item_code_falls_through [⟨"Color", "Red"⟩] ⟨"Item Code", "   "⟩ []
    (some "x-987654321-i-1") (by decide) (by decide) (by decide)
  exact ⟨h.1, h.2.trans (by decide)⟩
